import Mathlib

/-!
Verification of the Instagram-mirroring reconciliation engine
(`app/utils/instagram-sync.server.ts`, `app/utils/metaobjects.server.ts`,
`app/routes/api.instagram.staged-upload.tsx`).

The TypeScript code is shallowly embedded: the Shopify metaobject/file store
becomes an explicit `Store` value threaded through every operation, network
outcomes become explicit oracles, and each exported function of the source
becomes a Lean function of the same name operating on that state.
-/

namespace NnInstagram

/-- Boolean list-level "is a prefix of" check, mirroring JS `String.startsWith`
applied to the underlying character lists. -/
def listPrefixB {α : Type} [DecidableEq α] : List α → List α → Bool
  | [], _ => true
  | _ :: _, [] => false
  | a :: as, b :: bs => a = b && listPrefixB as bs

/-- Boolean list-level "occurs as contiguous substring" check, mirroring JS
`String.includes` and the Shopify coarse `alt:` substring search. -/
def listInfixB {α : Type} [DecidableEq α] : List α → List α → Bool
  | n, [] => n.isEmpty
  | n, b :: bs => listPrefixB n (b :: bs) || listInfixB n bs

/-- JS `s.startsWith(pre)`. -/
def strStartsWith (s pre : String) : Bool := listPrefixB pre.data s.data

/-- JS `s.includes(sub)`. -/
def strContains (s sub : String) : Bool := listInfixB sub.data s.data

/-- Identity key of a mirrored post: `${username}-post-${post.id}` as built in
`upsertPostMetaobject` and `getExistingPost`. -/
def postKey (username postId : String) : String := username ++ "-post-" ++ postId

/-- Identity key of the feed listing: `${username}-feed-list` as built in
`upsertListMetaobject` and `deleteOldAccountData`. -/
def listingKey (username : String) : String := username ++ "-feed-list"

/-- Alt tag of a single (non-carousel) upload: `${username}-post_${post.id}`. -/
def singleAlt (username postId : String) : String := username ++ "-post_" ++ postId

/-- Alt tag of a carousel child upload: `${username}-post_${post.id}_${child.id}`. -/
def childAlt (username postId childId : String) : String :=
  username ++ "-post_" ++ postId ++ "_" ++ childId

/-- One carousel child as delivered by the Instagram API
(`InstagramCarouselData` in `app/types/instagram.types.ts`). -/
structure InstagramChild where
  id : String
  media_url : String
  media_type : String
deriving DecidableEq

/-- One remote post as delivered by the Instagram API (`InstagramPost` in
`app/types/instagram.types.ts`); `children` collapses the `{ data: [...] }`
wrapper of the wire format. -/
structure InstagramPost where
  id : String
  media_type : String
  media_url : String
  caption : Option String
  like_count : Option Nat
  comments_count : Option Nat
  children : Option (List InstagramChild)
deriving DecidableEq

/-- Value of one metaobject field.  The source stores JSON strings; the
embedding keeps the decoded shape so that `JSON.parse (JSON.stringify x) = x`
is a constructor match (the round-trip contract of the spec). -/
inductive FieldValue where
  | str (s : String)
  | ids (l : List Nat)
  | postJson (p : InstagramPost)
  | igDataJson (ps : List InstagramPost)
deriving DecidableEq

/-- One metaobject in the Shopify store: numeric id standing for the gid,
metaobject type, handle, and fields. -/
structure StoreObject where
  id : Nat
  otype : String
  handle : String
  fields : List (String × FieldValue)
deriving DecidableEq

/-- One uploaded file in the Shopify store: numeric id and its alt tag. -/
structure FileObject where
  id : Nat
  alt : String
deriving DecidableEq

/-- The Shopify structured-object store: metaobjects, files, and a fresh-id
counter for ids assigned on creation. -/
structure Store where
  objects : List StoreObject
  files : List FileObject
  nextId : Nat
deriving DecidableEq

/-- Store well-formedness: distinct object ids, distinct file ids, distinct
(type, handle) pairs, and all ids below the fresh-id counter. -/
def StoreWF (s : Store) : Prop :=
  (s.objects.map (·.id)).Nodup ∧
  (s.files.map (·.id)).Nodup ∧
  (s.objects.map (fun o => (o.otype, o.handle))).Nodup ∧
  (∀ o ∈ s.objects, o.id < s.nextId) ∧
  (∀ f ∈ s.files, f.id < s.nextId)

instance (s : Store) : Decidable (StoreWF s) := by
  unfold StoreWF; infer_instance

/-- Models `metaobjectByHandle(type, handle)`: first stored object of that type and
handle. -/
def findByHandle (s : Store) (otype handle : String) : Option StoreObject :=
  s.objects.find? (fun o => o.otype == otype && o.handle == handle)

/-- Models `metaobjectUpsert`: update the fields of the object with this (type,
handle) if present (keeping its id), otherwise create it with a fresh id.
Returns the store and the id of the upserted metaobject. -/
def metaobjectUpsert (s : Store) (otype handle : String)
    (fields : List (String × FieldValue)) : Store × Nat :=
  match findByHandle s otype handle with
  | some o =>
    ({ s with objects :=
        s.objects.map (fun x => if x.id = o.id then { x with fields := fields } else x) },
     o.id)
  | none =>
    ({ s with objects := s.objects ++ [⟨s.nextId, otype, handle, fields⟩],
              nextId := s.nextId + 1 },
     s.nextId)

/-- Models `metaobjectDelete(id)`: remove the metaobject with this id. -/
def metaobjectDelete (s : Store) (i : Nat) : Store :=
  { s with objects := s.objects.filter (fun o => o.id != i) }

/-- Models `fileDelete(fileIds)`: remove every file whose id is in the batch. -/
def fileDeleteBatch (s : Store) (ids : List Nat) : Store :=
  { s with files := s.files.filter (fun f => !(ids.contains f.id)) }

/-- JS `x || d` for an optional string where the empty string is falsy. -/
def jsOrElse (x : Option String) (d : String) : String :=
  match x with
  | some c => if c == "" then d else c
  | none => d

/-- JS `String(x)` for an optional number: `String(undefined) = "undefined"`
(which is truthy, so the `|| "0"` in the source never fires). -/
def jsStringOfNum (x : Option Nat) : String :=
  match x with
  | some n => toString n
  | none => "undefined"

/-- The field list written by `upsertPostMetaobject` for one post. -/
def postFields (post : InstagramPost) (fileIds : List Nat) : List (String × FieldValue) :=
  [("data", FieldValue.postJson post),
   ("images", FieldValue.ids fileIds),
   ("caption", FieldValue.str (jsOrElse post.caption "No caption")),
   ("likes", FieldValue.str (jsStringOfNum post.like_count)),
   ("comments", FieldValue.str (jsStringOfNum post.comments_count))]

/-- Models `upsertPostMetaobject`: upsert of type `instagram-post`, handle
`${username}-post-${post.id}`; returns the store and the metaobject id. -/
def upsertPostMetaobject (s : Store) (post : InstagramPost) (fileIds : List Nat)
    (username : String) : Store × Nat :=
  metaobjectUpsert s "instagram-post" (postKey username post.id) (postFields post fileIds)

/-- Models `upsertListMetaobject`: upsert of type `instagram-list`, handle
`${username}-feed-list`, carrying the raw fetch envelope, the accumulated post
metaobject ids, the username and the display name. -/
def upsertListMetaobject (s : Store) (igData : List InstagramPost)
    (postObjectIds : List Nat) (username displayName : String) : Store × Nat :=
  metaobjectUpsert s "instagram-list" (listingKey username)
    [("data", FieldValue.igDataJson igData),
     ("posts", FieldValue.ids postObjectIds),
     ("username", FieldValue.str (jsOrElse (some username) "instagram_user")),
     ("name", FieldValue.str (jsOrElse (some displayName) "Instagram User"))]

/-- Models `JSON.parse` of a value that the engine reads back as a file-id array
(the `images` field); any other shape yields `[]` as in the source
`imagesField ? JSON.parse(...) : []` fallback. -/
def parseIds (v : FieldValue) : List Nat :=
  match v with
  | FieldValue.ids l => l
  | _ => []

/-- Result of `getExistingPost`. -/
structure ExistingPost where
  metaobjectId : Nat
  fileIds : List Nat
  handle : String
deriving DecidableEq

/-- Decode the `images` field of a stored metaobject, as `getExistingPost`
does (`imagesField ? JSON.parse(imagesField.value) : []`). -/
def fileIdsOfFields (fields : List (String × FieldValue)) : List Nat :=
  match fields.find? (fun kv => kv.1 == "images") with
  | some kv => parseIds kv.2
  | none => []

/-- Models `getExistingPost`: look up the metaobject of type `instagram-post` with
handle `${username}-post-${postId}` and decode its `images` field. -/
def getExistingPost (s : Store) (postId username : String) : Option ExistingPost :=
  match findByHandle s "instagram-post" (postKey username postId) with
  | none => none
  | some m =>
    some { metaobjectId := m.id, fileIds := fileIdsOfFields m.fields, handle := m.handle }

/-- Outcome of one `uploadMediaFile` network interaction, as seen by the sync
action: success (one file created), a store-side error reply, or a thrown and
caught transport error. -/
inductive UploadOutcome where
  | ok
  | storeErr (msg : String)
  | thrown (msg : String)
deriving DecidableEq

/-- Per-media network oracle for a sync run: url, media type, alt tag. -/
def UploadOracle : Type := String → String → String → UploadOutcome

/-- Models `uploadMediaFile` as the sync action sees it: on success one file with
the given alt is created in the store and its id returned; on any caught
failure the typed result carries zero file ids and the store is unchanged. -/
def uploadMediaFileS (oracle : UploadOracle) (s : Store)
    (mediaUrl mediaType alt : String) : Store × List Nat :=
  match oracle mediaUrl mediaType alt with
  | UploadOutcome.ok =>
    ({ s with files := s.files ++ [⟨s.nextId, alt⟩], nextId := s.nextId + 1 }, [s.nextId])
  | UploadOutcome.storeErr _ => (s, [])
  | UploadOutcome.thrown _ => (s, [])

/-- Observable events of one sync run, in execution order. -/
inductive Event where
  | purge (username : String)
  | updateUsername (username : String)
  | reconcile (postId : String)
  | upload (alt : String)
  | listing (postObjectIds : List Nat)
deriving DecidableEq

/-- Events emitted by the Account-Switch Detector (purge of the prior
username data and persisting the observed username). -/
def Event.isSwitchStep : Event → Bool
  | Event.purge _ => true
  | Event.updateUsername _ => true
  | _ => false

/-- Events emitted by the per-post reconciliation loop. -/
def Event.isReconcileStep : Event → Bool
  | Event.reconcile _ => true
  | Event.upload _ => true
  | _ => false

/-- The carousel upload loop of the action: upload each child in order with
alt `${username}-post_${post.id}_${child.id}`, concatenating file ids. -/
def uploadChildren (oracle : UploadOracle) (username postId : String) :
    List InstagramChild → Store → Store × List Nat × List Event
  | [], s => (s, [], [])
  | c :: cs, s =>
    let alt := childAlt username postId c.id
    let r1 := uploadMediaFileS oracle s c.media_url c.media_type alt
    let rest := uploadChildren oracle username postId cs r1.1
    (rest.1, r1.2 ++ rest.2.1, Event.upload alt :: rest.2.2)

/-- The upload half of the new-post branch: carousels upload each child
in order, anything else uploads the single media with alt
`${username}-post_${post.id}`. -/
def uploadPhase (oracle : UploadOracle) (username : String) (p : InstagramPost)
    (s : Store) : Store × List Nat × List Event :=
  if p.media_type == "CAROUSEL_ALBUM" && p.children.isSome then
    uploadChildren oracle username p.id (p.children.getD []) s
  else
    let alt := singleAlt username p.id
    let r := uploadMediaFileS oracle s p.media_url p.media_type alt
    (r.1, r.2, [Event.upload alt])

/-- Body of the per-post loop of the action (lines 100-206 of
`api.instagram.staged-upload.tsx`): existing posts are updated reusing their
stored file ids with no uploads; new posts upload their media (single or
carousel) and are upserted only when at least one file id was produced.
Returns the store, the produced metaobject id (if any), and the events. -/
def reconcilePost (oracle : UploadOracle) (s : Store) (username : String)
    (p : InstagramPost) : Store × Option Nat × List Event :=
  match getExistingPost s p.id username with
  | some ex =>
    let r := upsertPostMetaobject s p ex.fileIds username
    (r.1, some r.2, [Event.reconcile p.id])
  | none =>
    let up := uploadPhase oracle username p s
    if up.2.1.isEmpty then
      (up.1, none, Event.reconcile p.id :: up.2.2)
    else
      let r := upsertPostMetaobject up.1 p up.2.1 username
      (r.1, some r.2, Event.reconcile p.id :: up.2.2)

/-- Every upload the action would attempt for this post fails (no file id is
produced): for a carousel, every child upload; otherwise the single upload. -/
def uploadsAllFail (oracle : UploadOracle) (username : String) (p : InstagramPost) : Prop :=
  if p.media_type == "CAROUSEL_ALBUM" && p.children.isSome then
    ∀ c ∈ p.children.getD [],
      oracle c.media_url c.media_type (childAlt username p.id c.id) ≠ UploadOutcome.ok
  else
    oracle p.media_url p.media_type (singleAlt username p.id) ≠ UploadOutcome.ok

instance (oracle : UploadOracle) (u : String) (p : InstagramPost) :
    Decidable (uploadsAllFail oracle u p) := by
  unfold uploadsAllFail; infer_instance

/-- The post loop of the action: sequential reconciliation accumulating the
produced metaobject ids (`postObjectIds`) in order. -/
def reconcileLoop (oracle : UploadOracle) (username : String) (s : Store) :
    List InstagramPost → Store × List Nat × List Event
  | [] => (s, [], [])
  | p :: ps =>
    let r1 := reconcilePost oracle s username p
    let rest := reconcileLoop oracle username r1.1 ps
    (rest.1, (match r1.2.1 with | some i => [i] | none => []) ++ rest.2.1,
     r1.2.2 ++ rest.2.2)

/-- First section of `deleteOldAccountData`: fetch the first 250 metaobjects
of type `instagram-post` (the source issues a single `first: 250` query with
no cursor), filter client-side by handle prefix `${oldUsername}-post-` and
delete them one by one. -/
def purgeOldPosts (oldUsername : String) (s : Store) : Store :=
  let oldPostMetaobjects := (s.objects.filter (fun o => o.otype == "instagram-post")).take 250
  let pre := oldUsername ++ "-post-"
  let postsToDelete := oldPostMetaobjects.filter (fun o => strStartsWith o.handle pre)
  postsToDelete.foldl (fun st o => metaobjectDelete st o.id) s

/-- Second section of `deleteOldAccountData`: look up the listing with handle
`${oldUsername}-feed-list` and delete it if present. -/
def purgeOldList (oldUsername : String) (s : Store) : Store :=
  match findByHandle s "instagram-list" (listingKey oldUsername) with
  | some o => metaobjectDelete s o.id
  | none => s

/-- Third section of `deleteOldAccountData`: fetch the first 250 files
matching the coarse server-side substring query `alt:${oldUsername}-post_`,
filter client-side by alt prefix, and delete them in one batch. -/
def purgeOldFiles (oldUsername : String) (s : Store) : Store :=
  let altPre := oldUsername ++ "-post_"
  let pageFiles := (s.files.filter (fun f => strContains f.alt altPre)).take 250
  let oldFiles := pageFiles.filter (fun f => strStartsWith f.alt altPre)
  if oldFiles.isEmpty then s else fileDeleteBatch s (oldFiles.map (·.id))

/-- Models `deleteOldAccountData(admin, oldUsername)`: the three purge sections of
the source function run in order — old posts, old listing, old files. -/
def deleteOldAccountData (oldUsername : String) (s : Store) : Store :=
  purgeOldFiles oldUsername (purgeOldList oldUsername (purgeOldPosts oldUsername s))

/-- Result value of the sync action, from line 65 of the route onward (the
earlier authentication / token / API-error returns are outside the engine):
either the empty-feed early return `{success: true, postsCount: 0}` or the
final `{success: true, username, displayName}`. -/
inductive SyncResult where
  | noPosts
  | ok (username displayName : String)
deriving DecidableEq

/-- Both modeled returns of the action carry `success: true`. -/
def SyncResult.success : SyncResult → Bool
  | _ => true

/-- Models `postsCount` field of the action result, present only on the empty-feed
early return. -/
def SyncResult.postsCount : SyncResult → Option Nat
  | SyncResult.noPosts => some 0
  | SyncResult.ok _ _ => none

/-- Full observable outcome of one sync run: the HTTP result, the final
store, the username persisted on the ConnectionRecord, the accumulated
`postObjectIds`, and the ordered event trace. -/
structure SyncOutcome where
  result : SyncResult
  store : Store
  accountUsername : Option String
  postObjectIds : List Nat
  trace : List Event
deriving DecidableEq

/-- Post loop plus Listing Aggregator (lines 93-233 of the route): reconcile
every post in order, then upsert the `instagram-list` metaobject once iff at
least one post metaobject id was accumulated. -/
def syncCore (oracle : UploadOracle) (currentUsername displayName : String)
    (posts : List InstagramPost) (s : Store) : SyncOutcome :=
  let r := reconcileLoop oracle currentUsername s posts
  let fin :=
    if r.2.1.isEmpty then (r.1, ([] : List Event))
    else ((upsertListMetaobject r.1 posts r.2.1 currentUsername displayName).1,
          [Event.listing r.2.1])
  { result := SyncResult.ok currentUsername displayName,
    store := fin.1,
    accountUsername := some currentUsername,
    postObjectIds := r.2.1,
    trace := r.2.2 ++ fin.2 }

/-- The sync action from line 65 of `api.instagram.staged-upload.tsx` onward:
empty-feed early return, Account-Switch Detector (purge of the prior
username data on mismatch, then persisting the observed username), the
per-post reconciliation loop, and the Listing Aggregator.
`accountUsername` is `ConnectionRecord.username` as stored before the run;
`posts` is `igData.data` (`none` models a missing `data` field). -/
def syncAction (oracle : UploadOracle) (accountUsername : Option String)
    (posts : Option (List InstagramPost)) (currentUsername displayName : String)
    (s : Store) : SyncOutcome :=
  match posts with
  | none =>
    { result := SyncResult.noPosts, store := s, accountUsername := accountUsername,
      postObjectIds := [], trace := [] }
  | some ps =>
    if ps.isEmpty then
      { result := SyncResult.noPosts, store := s, accountUsername := accountUsername,
        postObjectIds := [], trace := [] }
    else
      let switch :=
        match accountUsername with
        | some old =>
          if old == currentUsername then (s, ([] : List Event))
          else (deleteOldAccountData old s,
                [Event.purge old, Event.updateUsername currentUsername])
        | none => (s, [Event.updateUsername currentUsername])
      let core := syncCore oracle currentUsername displayName ps switch.1
      { core with trace := switch.2 ++ core.trace }

/-- Models `deleteMetaobjects` (full purge half one, `metaobjects.server.ts`):
fetch the first 250 metaobjects of type `nn_instagram_post` and the first 10
of type `nn_instagram_list`, delete them all, and return both id lists. -/
def deleteMetaobjects (s : Store) : Store × List Nat × List Nat :=
  let postMetaobjectIds :=
    ((s.objects.filter (fun o => o.otype == "nn_instagram_post")).take 250).map (·.id)
  let listMetaobjectIds :=
    ((s.objects.filter (fun o => o.otype == "nn_instagram_list")).take 10).map (·.id)
  let s1 := (postMetaobjectIds ++ listMetaobjectIds).foldl metaobjectDelete s
  (s1, postMetaobjectIds, listMetaobjectIds)

/-- The cursor loop of `deleteInstagramFiles`, fuel-indexed so that it is
structural: each iteration fetches a page of 250 files, keeps those whose alt
contains `-post_`, and continues while `pageInfo.hasNextPage`.  The loop body
always runs at least once.  Returns the matched ids and the number of pages
fetched.  Fuel at least `files.length` never runs out. -/
def fetchPagesF : Nat → List FileObject → List Nat × Nat
  | 0, files =>
    (((files.take 250).filter (fun f => strContains f.alt "-post_")).map (·.id), 1)
  | fuel + 1, files =>
    let pageIds := ((files.take 250).filter (fun f => strContains f.alt "-post_")).map (·.id)
    if 250 < files.length then
      let rest := fetchPagesF fuel (files.drop 250)
      (pageIds ++ rest.1, rest.2 + 1)
    else
      (pageIds, 1)

/-- The paged fetch of `deleteInstagramFiles` over the file list of the store. -/
def fetchPages (files : List FileObject) : List Nat × Nat :=
  fetchPagesF files.length files

/-- The batching loop of `deleteInstagramFiles`
(`for i += 250: allFileIds.slice(i, i + 250)`), fuel-indexed so that it is
structural.  Fuel at least `ids.length` never runs out. -/
def toBatchesF : Nat → List Nat → List (List Nat)
  | 0, _ => []
  | fuel + 1, ids =>
    if ids.isEmpty then [] else ids.take 250 :: toBatchesF fuel (ids.drop 250)

/-- Batches of at most 250 ids, as sliced by `deleteInstagramFiles`. -/
def toBatches (ids : List Nat) : List (List Nat) :=
  toBatchesF ids.length ids

/-- Models `deleteInstagramFiles`: enumerate all pages, batch the matched ids by
250, issue one `fileDelete` per batch, discarding each reply (`resp` models
the reply `userErrors`, fetched and ignored by the source).  Returns the
final store, the matched ids, the page count, and the issued batches. -/
def deleteInstagramFiles (resp : List Nat → List String) (s : Store) :
    Store × List Nat × Nat × List (List Nat) :=
  let fetched := fetchPages s.files
  let batches := toBatches fetched.1
  let s1 := batches.foldl (fun st b => let _ := resp b; fileDeleteBatch st b) s
  (s1, fetched.1, fetched.2, batches)

/-- Models `ActionResponse` of `deleteInstagramData`. -/
structure ActionResponse where
  success : Bool
  deletedMetaobjects : Nat
  deletedFiles : Nat
deriving DecidableEq

/-- Models `deleteInstagramData` (full purge on disconnect): delete metaobjects,
then files, and report success with the client-side counts.  The embedded
operations are total, so the `catch` branch of the source is unreachable. -/
def deleteInstagramData (resp : List Nat → List String) (s : Store) :
    ActionResponse × Store :=
  let m := deleteMetaobjects s
  let f := deleteInstagramFiles resp m.1
  ({ success := true,
     deletedMetaobjects := m.2.1.length + m.2.2.length,
     deletedFiles := f.2.1.length },
   f.1)

/-- An HTTP response as observed by `fetch` in `uploadVideoWithStaging`:
`ok`, `statusText`, and (for the video download) the byte length of the
body.  A rejected `fetch` is an `Except.error` instead. -/
structure HttpResp where
  ok : Bool
  statusText : String
  byteLen : Nat
deriving DecidableEq

/-- One staged-upload target returned by `stagedUploadsCreate`. -/
structure StagedTarget where
  url : String
  resourceUrl : String
deriving DecidableEq

/-- The payload of a `fileCreate` reply (`data.fileCreate`), per the store
contract: created file ids plus user-error messages. -/
structure FCResp where
  files : List String
  userErrors : List String
deriving DecidableEq

/-- Collaborator oracle for one media upload: every network step either
succeeds with a reply or fails as a thrown/rejected call (`Except.error`). -/
structure UploadEnv where
  fetchVideo : String → Except String HttpResp
  stagedCreate : String → Nat → Except String (Option StagedTarget)
  postToTarget : String → Except String HttpResp
  fileCreateResp : String → String → String → Except String FCResp

/-- Models `createShopifyFile`: one direct `fileCreate` GraphQL call (no catch of
its own). -/
def createShopifyFile (env : UploadEnv) (mediaUrl alt contentType : String) :
    Except String FCResp :=
  env.fileCreateResp mediaUrl alt contentType

/-- The `try` body of `uploadVideoWithStaging`: download the bytes, create a
staged upload sized to them, POST to the target, then register the staged
resource via `createShopifyFile`.  Every `throw new Error(...)` of the source
is an `Except.error`. -/
def uploadVideoWithStagingE (env : UploadEnv) (videoUrl alt : String) :
    Except String FCResp :=
  match env.fetchVideo videoUrl with
  | Except.error e => Except.error e
  | Except.ok vr =>
    if !vr.ok then Except.error ("Failed to download video: " ++ vr.statusText)
    else
      match env.stagedCreate (alt ++ ".mp4") vr.byteLen with
      | Except.error e => Except.error e
      | Except.ok none => Except.error "Failed to create staged upload"
      | Except.ok (some target) =>
        match env.postToTarget target.url with
        | Except.error e => Except.error e
        | Except.ok pr =>
          if !pr.ok then
            Except.error ("Failed to upload to staged target: " ++ pr.statusText)
          else createShopifyFile env target.resourceUrl alt "VIDEO"

/-- Models `uploadVideoWithStaging`: the staged protocol with its `catch`, which
converts any thrown step into `{files: [], userErrors: [{message}]}`. -/
def uploadVideoWithStaging (env : UploadEnv) (videoUrl alt : String) : FCResp :=
  match uploadVideoWithStagingE env videoUrl alt with
  | Except.ok r => r
  | Except.error e => { files := [], userErrors := [e] }

/-- Models `uploadMediaFile`: videos go through the staged protocol (whose catch is
internal), images through a direct `createShopifyFile` guarded by this
catch of the function itself. -/
def uploadMediaFile (env : UploadEnv) (mediaUrl mediaType alt : String) : FCResp :=
  match
    (if mediaType == "VIDEO" then
       Except.ok (uploadVideoWithStaging env mediaUrl alt)
     else createShopifyFile env mediaUrl alt "IMAGE") with
  | Except.ok r => r
  | Except.error e => { files := [], userErrors := [e] }

/-- Failure of some step of the upload protocol for this input: for videos,
the byte fetch rejecting or non-ok, staged-upload creation rejecting or
returning no target, the multipart POST rejecting or non-ok, or the
registration call rejecting or replying with no file and a user error; for
images, the direct create-by-URL call rejecting or replying with no file and
a user error. -/
def stepFailed (env : UploadEnv) (mediaUrl mediaType alt : String) : Bool :=
  if mediaType == "VIDEO" then
    match env.fetchVideo mediaUrl with
    | Except.error _ => true
    | Except.ok vr =>
      if !vr.ok then true
      else
        match env.stagedCreate (alt ++ ".mp4") vr.byteLen with
        | Except.error _ => true
        | Except.ok none => true
        | Except.ok (some target) =>
          match env.postToTarget target.url with
          | Except.error _ => true
          | Except.ok pr =>
            if !pr.ok then true
            else
              match env.fileCreateResp target.resourceUrl alt "VIDEO" with
              | Except.error _ => true
              | Except.ok fc => fc.files.isEmpty && !fc.userErrors.isEmpty
  else
    match env.fileCreateResp mediaUrl alt "IMAGE" with
    | Except.error _ => true
    | Except.ok fc => fc.files.isEmpty && !fc.userErrors.isEmpty

/-- A single-image remote post, used as concrete input. -/
def demoPost : InstagramPost :=
  { id := "1", media_type := "IMAGE", media_url := "https://ig/1.jpg",
    caption := some "hello", like_count := some 3, comments_count := some 2,
    children := none }

/-- A second single-image remote post, used as concrete input. -/
def demoPost2 : InstagramPost :=
  { id := "2", media_type := "IMAGE", media_url := "https://ig/2.jpg",
    caption := none, like_count := none, comments_count := some 0,
    children := none }

/-- The empty store. -/
def emptyStore : Store := { objects := [], files := [], nextId := 0 }

/-- Oracle under which every upload succeeds. -/
def oracleOK : UploadOracle := fun _ _ _ => UploadOutcome.ok

/-- Oracle under which every upload fails with a caught transport error. -/
def oracleFail : UploadOracle := fun _ _ _ => UploadOutcome.thrown "network error"

/-- A store in which the prior account "alice" owns two mirrored posts, her
listing and one tagged file, next to one unrelated post and one unrelated
file. -/
def aliceStore : Store :=
  { objects :=
      [⟨0, "instagram-post", "alice-post-1", []⟩,
       ⟨1, "instagram-post", "alice-post-2", []⟩,
       ⟨2, "instagram-list", "alice-feed-list", []⟩,
       ⟨3, "instagram-post", "carol-post-9", []⟩],
    files := [⟨4, "alice-post_1"⟩, ⟨5, "carol-post_9"⟩],
    nextId := 6 }

/-- A store holding 251 mirrored posts of "alice" (handles
`alice-post-0` … `alice-post-250`), one more than a single query page. -/
def bigAliceStore : Store :=
  { objects := (List.range 251).map
      (fun i => ⟨i, "instagram-post", "alice-post-" ++ toString i, []⟩),
    files := [], nextId := 300 }

/-- A store holding exactly one mirrored post, created by the engine function
`upsertPostMetaobject` itself. -/
def oneMirroredPostStore : Store :=
  (upsertPostMetaobject emptyStore demoPost [0] "alice").1

/-- A store holding 600 files whose alt tags all match the `-post_` filter. -/
def store600 : Store :=
  { objects := [], files := (List.range 600).map (fun i => ⟨i, "u-post_0"⟩),
    nextId := 600 }

/-- A delete reply carrying no user errors. -/
def respNone : List Nat → List String := fun _ => []

/-- A delete reply in which one batch reports a non-fatal user error. -/
def respOneErr : List Nat → List String :=
  fun b => if b.contains 0 then ["files could not be deleted"] else []

/-- An upload environment whose video byte fetch rejects. -/
def envFetchFail : UploadEnv :=
  { fetchVideo := fun _ => Except.error "network down",
    stagedCreate := fun _ _ => Except.ok (some ⟨"https://s", "https://r"⟩),
    postToTarget := fun _ => Except.ok ⟨true, "OK", 0⟩,
    fileCreateResp := fun _ _ _ => Except.ok ⟨["gid1"], []⟩ }

/-! ## Helper lemmas -/

theorem str_data_append (a b : String) : (a ++ b).data = a.data ++ b.data := by
  cases a; cases b; rfl

theorem str_ext {a b : String} (h : a.data = b.data) : a = b :=
  String.ext h

theorem sep_append_inj {α : Type} {a : α} :
    ∀ {l1 l2 t1 t2 : List α}, a ∉ l1 → a ∉ l2 →
      l1 ++ a :: t1 = l2 ++ a :: t2 → l1 = l2 ∧ t1 = t2 := by
  intro l1
  induction l1 with
  | nil =>
    intro l2 t1 t2 _ h2 h
    cases l2 with
    | nil => simpa using h
    | cons y ys =>
      simp only [List.nil_append, List.cons_append, List.cons.injEq] at h
      exact absurd (h.1 ▸ List.mem_cons_self y ys) h2
  | cons x xs ih =>
    intro l2 t1 t2 h1 h2 h
    cases l2 with
    | nil =>
      simp only [List.nil_append, List.cons_append, List.cons.injEq] at h
      exact absurd (h.1.symm ▸ List.mem_cons_self x xs) h1
    | cons y ys =>
      simp only [List.cons_append, List.cons.injEq] at h
      have hr := ih (fun hm => h1 (List.mem_cons_of_mem x hm))
        (fun hm => h2 (List.mem_cons_of_mem y hm)) h.2
      exact ⟨by simp [h.1, hr.1], hr.2⟩

/-! ## C3: identity keys of different usernames -/

/-- C3 counterexample: as literally quantified ("for all usernames u1 ≠ u2
and any post ids p1, p2"), `postKey` is not collision-free — a hyphenated
username and a post id containing `-post-` collide. -/
theorem postKey_collision_counterexample :
    postKey "a" "b-post-c" = postKey "a-post-b" "c" ∧ ("a" : String) ≠ "a-post-b" := by
  constructor <;> decide

/-- C3 (amended): keys derived from different usernames never collide when
usernames do not contain the hyphen character (true of Instagram usernames);
for one and the same post id the derived keys always differ, with no
restriction. -/
theorem postKey_username_disjoint (u1 u2 : String) (hne : u1 ≠ u2) :
    (('-' ∉ u1.data) → ('-' ∉ u2.data) →
      ∀ p1 p2 : String, postKey u1 p1 ≠ postKey u2 p2) ∧
    (∀ p : String, postKey u1 p ≠ postKey u2 p) := by
  have hsep : ("-post-" : String).data = '-' :: ("post-" : String).data := by decide
  constructor
  · intro h1 h2 p1 p2 h
    apply hne
    have hd : (postKey u1 p1).data = (postKey u2 p2).data := by rw [h]
    rw [postKey, postKey, str_data_append, str_data_append, str_data_append,
      str_data_append, List.append_assoc, List.append_assoc, hsep] at hd
    simp only [List.cons_append] at hd
    exact str_ext (sep_append_inj h1 h2 hd).1
  · intro p h
    apply hne
    have hd : (postKey u1 p).data = (postKey u2 p).data := by rw [h]
    rw [postKey, postKey, str_data_append, str_data_append, str_data_append,
      str_data_append] at hd
    have h1 := List.append_inj' hd (by simp)
    have h2 := List.append_inj' h1.1 rfl
    exact str_ext h2.1

theorem postKey_username_disjoint_witness :
    postKey "alice" "7" ≠ postKey "bob" "9" :=
  (postKey_username_disjoint "alice" "bob" (by decide)).1 (by decide) (by decide) "7" "9"

/-! ## C9: empty feed early return -/

/-- C9: when the remote fetch succeeds but yields no posts (an empty or
missing `data` list), the action returns the `postsCount: 0` success result
immediately: the store is untouched, the stored username is not updated (even
if it differs from the observed one), and no purge or reconciliation event
happens. -/
theorem emptyFeedEarlyReturn (oracle : UploadOracle) (accountUsername : Option String)
    (currentUsername displayName : String) (s : Store) :
    syncAction oracle accountUsername (some []) currentUsername displayName s
      = { result := SyncResult.noPosts, store := s, accountUsername := accountUsername,
          postObjectIds := [], trace := [] }
    ∧ syncAction oracle accountUsername none currentUsername displayName s
      = { result := SyncResult.noPosts, store := s, accountUsername := accountUsername,
          postObjectIds := [], trace := [] }
    ∧ SyncResult.noPosts.success = true
    ∧ SyncResult.noPosts.postsCount = some 0 :=
  ⟨rfl, rfl, rfl, rfl⟩

/-! ## C6: the media uploader never raises -/

theorem video_step_failure (env : UploadEnv) (url alt : String)
    (h : stepFailed env url "VIDEO" alt = true) :
    (∃ e, uploadVideoWithStagingE env url alt = Except.error e) ∨
    (∃ fc, uploadVideoWithStagingE env url alt = Except.ok fc ∧
      fc.files = [] ∧ fc.userErrors ≠ []) := by
  rw [stepFailed, if_pos (by decide)] at h
  rw [uploadVideoWithStagingE]
  cases hfv : env.fetchVideo url with
  | error e => exact Or.inl ⟨e, rfl⟩
  | ok vr =>
    obtain ⟨vok, vst, vbl⟩ := vr
    cases vok with
    | false => exact Or.inl ⟨_, rfl⟩
    | true =>
      dsimp only
      cases hsc : env.stagedCreate (alt ++ ".mp4") vbl with
      | error e => exact Or.inl ⟨e, rfl⟩
      | ok tgt =>
        cases tgt with
        | none => exact Or.inl ⟨_, rfl⟩
        | some target =>
          dsimp only
          cases hpt : env.postToTarget target.url with
          | error e => exact Or.inl ⟨e, rfl⟩
          | ok pr =>
            obtain ⟨pok, pst, pbl⟩ := pr
            cases pok with
            | false => exact Or.inl ⟨_, rfl⟩
            | true =>
              dsimp only
              rw [createShopifyFile]
              cases hfc : env.fileCreateResp target.resourceUrl alt "VIDEO" with
              | error e => exact Or.inl ⟨e, rfl⟩
              | ok fc =>
                simp only [hfv, hsc, hpt, hfc] at h
                simp only [Bool.true_eq_false, if_false, Bool.and_eq_true,
                  List.isEmpty_iff, Bool.not_eq_true', List.isEmpty_eq_false] at h
                refine Or.inr ⟨fc, rfl, h.1, ?_⟩
                simpa using h.2

/-- C6: for every input and every failure of any step of the upload protocol
(byte fetch, staged-upload creation, multipart POST, file registration, or
direct create-by-URL), `uploadMediaFile` returns a typed result carrying zero
file identities plus an error message — the failure never escapes to the
caller. -/
theorem uploadMediaFile_failure_contained (env : UploadEnv)
    (mediaUrl mediaType alt : String)
    (h : stepFailed env mediaUrl mediaType alt = true) :
    (uploadMediaFile env mediaUrl mediaType alt).files = [] ∧
    (uploadMediaFile env mediaUrl mediaType alt).userErrors ≠ [] := by
  by_cases hv : mediaType == "VIDEO"
  · have hveq : mediaType = "VIDEO" := by simpa using hv
    subst hveq
    rw [uploadMediaFile, if_pos (by decide), uploadVideoWithStaging]
    rcases video_step_failure env mediaUrl alt h with ⟨e, he⟩ | ⟨fc, hfc, hfiles, herrs⟩
    · rw [he]; exact ⟨rfl, by simp⟩
    · rw [hfc]; exact ⟨hfiles, herrs⟩
  · rw [stepFailed, if_neg hv] at h
    rw [uploadMediaFile, if_neg hv, createShopifyFile]
    cases hfc : env.fileCreateResp mediaUrl alt "IMAGE" with
    | error e => exact ⟨rfl, by simp⟩
    | ok fc =>
      rw [hfc] at h
      simp only [Bool.and_eq_true, List.isEmpty_iff, Bool.not_eq_true',
        List.isEmpty_eq_false] at h
      exact ⟨h.1, by simpa using h.2⟩

theorem uploadMediaFile_failure_contained_witness :
    stepFailed envFetchFail "https://v" "VIDEO" "clip" = true ∧
    (uploadMediaFile envFetchFail "https://v" "VIDEO" "clip").files = [] ∧
    (uploadMediaFile envFetchFail "https://v" "VIDEO" "clip").userErrors ≠ [] :=
  ⟨by decide,
   (uploadMediaFile_failure_contained envFetchFail "https://v" "VIDEO" "clip" (by decide)).1,
   (uploadMediaFile_failure_contained envFetchFail "https://v" "VIDEO" "clip" (by decide)).2⟩

/-! ## C8: purge pagination and batching -/

theorem toBatchesF_flatten (n : Nat) :
    ∀ ids : List Nat, ids.length ≤ n → (toBatchesF n ids).flatten = ids := by
  induction n with
  | zero =>
    intro ids h
    have he : ids = [] := List.eq_nil_of_length_eq_zero (Nat.le_zero.mp h)
    subst he; rfl
  | succ n ih =>
    intro ids h
    by_cases he : ids.isEmpty = true
    · have hnil : ids = [] := by simpa [List.isEmpty_iff] using he
      subst hnil; rfl
    · have hne : ids ≠ [] := by simpa [List.isEmpty_iff] using he
      have hlen : 1 ≤ ids.length := by
        cases ids with
        | nil => simp at hne
        | cons a as => simp
      rw [toBatchesF, if_neg he]
      rw [List.flatten_cons]
      rw [ih (ids.drop 250) (by rw [List.length_drop]; omega)]
      exact List.take_append_drop 250 ids

theorem toBatchesF_sizes (n : Nat) :
    ∀ ids : List Nat, ids.length ≤ n → ∀ b ∈ toBatchesF n ids, b.length ≤ 250 := by
  induction n with
  | zero => intro ids _ b hb; simp [toBatchesF] at hb
  | succ n ih =>
    intro ids h b hb
    by_cases he : ids.isEmpty = true
    · rw [toBatchesF, if_pos he] at hb; simp at hb
    · have hne : ids ≠ [] := by simpa [List.isEmpty_iff] using he
      have hlen : 1 ≤ ids.length := by
        cases ids with
        | nil => simp at hne
        | cons a as => simp
      rw [toBatchesF, if_neg he] at hb
      rcases List.mem_cons.mp hb with hb1 | hb2
      · subst hb1; rw [List.length_take]; omega
      · exact ih (ids.drop 250) (by rw [List.length_drop]; omega) b hb2

theorem toBatchesF_count (n : Nat) :
    ∀ ids : List Nat, ids.length ≤ n →
      (toBatchesF n ids).length = (ids.length + 249) / 250 := by
  induction n with
  | zero =>
    intro ids h
    have he : ids = [] := List.eq_nil_of_length_eq_zero (Nat.le_zero.mp h)
    subst he; rfl
  | succ n ih =>
    intro ids h
    by_cases he : ids.isEmpty = true
    · have hnil : ids = [] := by simpa [List.isEmpty_iff] using he
      subst hnil; rfl
    · have hne : ids ≠ [] := by simpa [List.isEmpty_iff] using he
      have hlen : 1 ≤ ids.length := by
        cases ids with
        | nil => simp at hne
        | cons a as => simp
      rw [toBatchesF, if_neg he]
      rw [List.length_cons]
      rw [ih (ids.drop 250) (by rw [List.length_drop]; omega)]
      rw [List.length_drop]
      omega

set_option maxRecDepth 100000

/-- C8: the full-purge batching covers every matched file id in batches of at
most 250, issuing `ceil(n/250)` delete batches; on a store of 600 matching
files the purge fetches 3 pages and issues 3 batches of sizes 250, 250 and
100, and `deleteInstagramData` reports success with the full client-side
count no matter what user errors the delete replies carry. -/
theorem purge_pagination_batches :
    (∀ ids : List Nat, (toBatches ids).flatten = ids) ∧
    (∀ ids : List Nat, ∀ b ∈ toBatches ids, b.length ≤ 250) ∧
    (∀ ids : List Nat, (toBatches ids).length = (ids.length + 249) / 250) ∧
    (∀ resp : List Nat → List String,
      (deleteInstagramFiles resp store600).2.2.1 = 3 ∧
      ((deleteInstagramFiles resp store600).2.2.2).map List.length = [250, 250, 100] ∧
      (deleteInstagramData resp store600).1.success = true ∧
      (deleteInstagramData resp store600).1.deletedFiles = 600) := by
  refine ⟨fun ids => toBatchesF_flatten ids.length ids le_rfl,
          fun ids => toBatchesF_sizes ids.length ids le_rfl,
          fun ids => toBatchesF_count ids.length ids le_rfl,
          fun resp => ⟨?_, ?_, rfl, ?_⟩⟩
  · exact (by decide : (fetchPages store600.files).2 = 3)
  · exact (by decide :
      (toBatches (fetchPages store600.files).1).map List.length = [250, 250, 100])
  · exact (by decide : (fetchPages (deleteMetaobjects store600).1.files).1.length = 600)

theorem purge_pagination_batches_witness :
    ((List.range 600).take 250).length ≤ 250 :=
  purge_pagination_batches.2.1 (List.range 600) ((List.range 600).take 250) (by decide)

/-! ## C2: reconciliation is idempotent -/

theorem map_id_of_mem {α : Type} {f : α → α} :
    ∀ {l : List α}, (∀ x ∈ l, f x = x) → l.map f = l := by
  intro l h
  induction l with
  | nil => rfl
  | cons a as ih =>
    simp only [List.map_cons]
    rw [h a (by simp), ih (fun x hx => h x (by simp [hx]))]

theorem uploadMediaFileS_objects (oracle : UploadOracle) (s : Store)
    (url mt alt : String) :
    ((uploadMediaFileS oracle s url mt alt).1).objects = s.objects ∧
    s.nextId ≤ ((uploadMediaFileS oracle s url mt alt).1).nextId := by
  rw [uploadMediaFileS]
  cases oracle url mt alt <;> simp

theorem uploadChildren_objects (oracle : UploadOracle) (u pid : String) :
    ∀ (cs : List InstagramChild) (s : Store),
      ((uploadChildren oracle u pid cs s).1).objects = s.objects ∧
      s.nextId ≤ ((uploadChildren oracle u pid cs s).1).nextId := by
  intro cs
  induction cs with
  | nil => intro s; exact ⟨rfl, le_rfl⟩
  | cons c cs ih =>
    intro s
    rw [uploadChildren]
    dsimp only
    constructor
    · rw [(ih _).1, (uploadMediaFileS_objects oracle s _ _ _).1]
    · exact le_trans (uploadMediaFileS_objects oracle s _ _ _).2 (ih _).2

theorem uploadPhase_objects (oracle : UploadOracle) (u : String) (p : InstagramPost)
    (s : Store) :
    ((uploadPhase oracle u p s).1).objects = s.objects ∧
    s.nextId ≤ ((uploadPhase oracle u p s).1).nextId := by
  rw [uploadPhase]
  by_cases hc : (p.media_type == "CAROUSEL_ALBUM" && p.children.isSome) = true
  · rw [if_pos hc]
    exact uploadChildren_objects oracle u p.id (p.children.getD []) s
  · rw [if_neg hc]
    dsimp only
    exact ⟨(uploadMediaFileS_objects oracle s _ _ _).1,
           (uploadMediaFileS_objects oracle s _ _ _).2⟩

theorem fileIdsOf_postFields (p : InstagramPost) (l : List Nat) :
    fileIdsOfFields (postFields p l) = l := rfl

theorem find?_handle_map (l : List StoreObject) (ot hd : String)
    (F : List (String × FieldValue)) (mid : Nat) :
    (l.map (fun x => if x.id = mid then { x with fields := F } else x)).find?
        (fun o => o.otype == ot && o.handle == hd)
      = (l.find? (fun o => o.otype == ot && o.handle == hd)).map
          (fun x => if x.id = mid then { x with fields := F } else x) := by
  rw [List.find?_map]
  have hpf : ((fun o : StoreObject => o.otype == ot && o.handle == hd) ∘
      (fun x => if x.id = mid then { x with fields := F } else x))
      = (fun o : StoreObject => o.otype == ot && o.handle == hd) := by
    funext x
    by_cases hx : x.id = mid <;> simp [hx]
  rw [hpf]

theorem metaobjectUpsert_found_id (s : Store) (ot hd : String)
    (F : List (String × FieldValue)) (o : StoreObject)
    (hfind : findByHandle s ot hd = some o)
    (hsame : ∀ x ∈ s.objects, x.id = o.id → x.fields = F) :
    metaobjectUpsert s ot hd F = (s, o.id) := by
  rw [metaobjectUpsert, hfind]
  have hmap : s.objects.map (fun x => if x.id = o.id then { x with fields := F } else x)
      = s.objects := by
    apply map_id_of_mem
    intro x hx
    by_cases hxy : x.id = o.id
    · rw [if_pos hxy, ← hsame x hx hxy]
    · rw [if_neg hxy]
  dsimp only
  rw [hmap]

/-- C2: reconciling the same `InstagramPost` a second time, with identical
content, finds the stored mirror by its key and is a no-op: the store is
unchanged (no duplicate metaobject, no new file), the same metaobject id is
produced, and no upload happens (the trace is the bare reconcile event). -/
theorem reconcile_idempotent (oracle : UploadOracle) (s0 : Store) (u : String)
    (p : InstagramPost) (hid : ∀ o ∈ s0.objects, o.id < s0.nextId) (i : Nat)
    (h : (reconcilePost oracle s0 u p).2.1 = some i) :
    reconcilePost oracle (reconcilePost oracle s0 u p).1 u p
      = ((reconcilePost oracle s0 u p).1, some i, [Event.reconcile p.id]) := by
  cases hF : findByHandle s0 "instagram-post" (postKey u p.id) with
  | some m =>
    have hE : getExistingPost s0 p.id u
        = some ⟨m.id, fileIdsOfFields m.fields, m.handle⟩ := by
      rw [getExistingPost, hF]
    have hR1 : reconcilePost oracle s0 u p
        = ((upsertPostMetaobject s0 p (fileIdsOfFields m.fields) u).1,
           some (upsertPostMetaobject s0 p (fileIdsOfFields m.fields) u).2,
           [Event.reconcile p.id]) := by
      rw [reconcilePost, hE]
    have hU1 : upsertPostMetaobject s0 p (fileIdsOfFields m.fields) u
        = ({ s0 with objects := s0.objects.map (fun x =>
              if x.id = m.id then
                { x with fields := postFields p (fileIdsOfFields m.fields) } else x) },
           m.id) := by
      rw [upsertPostMetaobject, metaobjectUpsert, hF]
    have hi : i = m.id := by
      rw [hR1, hU1] at h
      exact (Option.some.injEq .. ▸ h).symm
    set F := postFields p (fileIdsOfFields m.fields) with hFdef
    set g := fun x : StoreObject => if x.id = m.id then { x with fields := F } else x
      with hgdef
    have hs1 : (reconcilePost oracle s0 u p).1 = { s0 with objects := s0.objects.map g } := by
      rw [hR1, hU1]
    have hF2 : findByHandle { s0 with objects := s0.objects.map g }
        "instagram-post" (postKey u p.id) = some (g m) := by
      rw [findByHandle]
      show (s0.objects.map g).find? _ = _
      rw [hgdef, find?_handle_map]
      rw [findByHandle] at hF
      rw [hF]
      rfl
    have hgm : g m = { m with fields := F } := by
      rw [hgdef]; simp
    have hE2 : getExistingPost { s0 with objects := s0.objects.map g } p.id u
        = some ⟨m.id, fileIdsOfFields m.fields, m.handle⟩ := by
      rw [getExistingPost, hF2, hgm]
      simp [hFdef, fileIdsOf_postFields]
    have hmapid : (s0.objects.map g).map g = s0.objects.map g := by
      apply map_id_of_mem
      intro x hx
      rcases List.mem_map.mp hx with ⟨y, hy, hyx⟩
      by_cases hxy : y.id = m.id
      · have : x = { y with fields := F } := by rw [← hyx, hgdef]; simp [hxy]
        subst this
        rw [hgdef]
        simp [hxy]
      · have : x = y := by rw [← hyx, hgdef]; simp [hxy]
        subst this
        rw [hgdef]
        simp [hxy]
    have hU2 : upsertPostMetaobject { s0 with objects := s0.objects.map g } p
        (fileIdsOfFields m.fields) u
        = ({ s0 with objects := s0.objects.map g }, m.id) := by
      rw [upsertPostMetaobject, metaobjectUpsert, hF2, hgm]
      simp only
      rw [← hFdef]
      have : (fun x : StoreObject => if x.id = m.id then { x with fields := F } else x) = g := by
        rw [hgdef]
      rw [this, hmapid]
    rw [hs1, hi, reconcilePost, hE2]
    simp only [hU2]
  | none =>
    have hE : getExistingPost s0 p.id u = none := by
      rw [getExistingPost, hF]
    set up := uploadPhase oracle u p s0 with hupdef
    by_cases hEmp : up.2.1.isEmpty = true
    · rw [reconcilePost, hE] at h
      dsimp only at h
      rw [← hupdef, if_pos hEmp] at h
      exact absurd h (by simp)
    · have hobj : up.1.objects = s0.objects := (uploadPhase_objects oracle u p s0).1
      have hnx : s0.nextId ≤ up.1.nextId := (uploadPhase_objects oracle u p s0).2
      have hFup : findByHandle up.1 "instagram-post" (postKey u p.id) = none := by
        rw [findByHandle, hobj]
        rw [findByHandle] at hF
        exact hF
      set newObj : StoreObject :=
        ⟨up.1.nextId, "instagram-post", postKey u p.id, postFields p up.2.1⟩ with hnewdef
      have hU1 : upsertPostMetaobject up.1 p up.2.1 u
          = ({ up.1 with objects := up.1.objects ++ [newObj], nextId := up.1.nextId + 1 },
             up.1.nextId) := by
        rw [upsertPostMetaobject, metaobjectUpsert, hFup, hnewdef]
      have hR1v : reconcilePost oracle s0 u p
          = ((upsertPostMetaobject up.1 p up.2.1 u).1,
             some (upsertPostMetaobject up.1 p up.2.1 u).2,
             Event.reconcile p.id :: up.2.2) := by
        rw [reconcilePost, hE]
        dsimp only
        rw [← hupdef, if_neg hEmp]
      have hi : i = up.1.nextId := by
        rw [hR1v, hU1] at h
        exact (Option.some.injEq .. ▸ h).symm
      set s2 : Store :=
        { up.1 with objects := up.1.objects ++ [newObj], nextId := up.1.nextId + 1 }
        with hs2def
      have hs1 : (reconcilePost oracle s0 u p).1 = s2 := by
        rw [hR1v, hU1]
      have hF2 : findByHandle s2 "instagram-post" (postKey u p.id) = some newObj := by
        rw [findByHandle, hs2def]
        show (up.1.objects ++ [newObj]).find? _ = _
        rw [List.find?_append]
        rw [findByHandle] at hFup
        rw [hFup]
        simp [hnewdef]
      have hnid : newObj.id = up.1.nextId := by rw [hnewdef]
      have hE2 : getExistingPost s2 p.id u
          = some ⟨newObj.id, up.2.1, postKey u p.id⟩ := by
        rw [getExistingPost, hF2]
        exact rfl
      have hsame : ∀ x ∈ s2.objects, x.id = newObj.id → x.fields = postFields p up.2.1 := by
        intro x hx hxid
        rw [hs2def] at hx
        simp only [List.mem_append] at hx
        rcases hx with hx1 | hx2
        · exfalso
          have hlt : x.id < up.1.nextId := by
            have := hid x (hobj ▸ hx1)
            omega
          rw [hxid, hnid] at hlt
          omega
        · have hxn : x = newObj := by simpa using hx2
          subst hxn
          rw [hnewdef]
      have hU2 : upsertPostMetaobject s2 p up.2.1 u = (s2, newObj.id) := by
        rw [upsertPostMetaobject]
        exact metaobjectUpsert_found_id s2 "instagram-post" (postKey u p.id)
          (postFields p up.2.1) newObj hF2 hsame
      rw [hs1, hi, reconcilePost, hE2]
      dsimp only
      rw [hU2, hnid]

theorem reconcile_idempotent_witness :
    (reconcilePost oracleOK emptyStore "alice" demoPost).2.1 = some 1 ∧
    reconcilePost oracleOK (reconcilePost oracleOK emptyStore "alice" demoPost).1
        "alice" demoPost
      = ((reconcilePost oracleOK emptyStore "alice" demoPost).1, some 1,
         [Event.reconcile "1"]) :=
  ⟨by decide,
   reconcile_idempotent oracleOK emptyStore "alice" demoPost
     (by intro o ho; simp [emptyStore] at ho) 1 (by decide)⟩

/-! ## C5: a post whose uploads all fail is skipped, the run continues -/

@[simp] theorem reconcileLoop_nil (oracle : UploadOracle) (u : String) (s : Store) :
    reconcileLoop oracle u s [] = (s, [], []) := rfl

theorem reconcileLoop_cons (oracle : UploadOracle) (u : String) (s : Store)
    (p : InstagramPost) (ps : List InstagramPost) :
    reconcileLoop oracle u s (p :: ps)
      = ((reconcileLoop oracle u (reconcilePost oracle s u p).1 ps).1,
         (match (reconcilePost oracle s u p).2.1 with
          | some i => [i]
          | none => []) ++ (reconcileLoop oracle u (reconcilePost oracle s u p).1 ps).2.1,
         (reconcilePost oracle s u p).2.2
           ++ (reconcileLoop oracle u (reconcilePost oracle s u p).1 ps).2.2) := rfl

theorem uploadMediaFileS_fail (oracle : UploadOracle) (s : Store) (url mt alt : String)
    (h : oracle url mt alt ≠ UploadOutcome.ok) :
    uploadMediaFileS oracle s url mt alt = (s, []) := by
  rw [uploadMediaFileS]
  cases ho : oracle url mt alt with
  | ok => exact absurd ho h
  | storeErr m => rfl
  | thrown m => rfl

theorem uploadChildren_fail (oracle : UploadOracle) (u pid : String) :
    ∀ (cs : List InstagramChild) (s : Store),
      (∀ c ∈ cs, oracle c.media_url c.media_type (childAlt u pid c.id) ≠ UploadOutcome.ok) →
      (uploadChildren oracle u pid cs s).1 = s ∧ (uploadChildren oracle u pid cs s).2.1 = [] := by
  intro cs
  induction cs with
  | nil => intro s _; exact ⟨rfl, rfl⟩
  | cons c cs ih =>
    intro s hfail
    rw [uploadChildren]
    dsimp only
    rw [uploadMediaFileS_fail oracle s _ _ _ (hfail c (by simp))]
    have hr := ih s (fun x hx => hfail x (by simp [hx]))
    exact ⟨hr.1, by simp [hr.2]⟩

theorem uploadPhase_fail (oracle : UploadOracle) (u : String) (p : InstagramPost)
    (s : Store) (h : uploadsAllFail oracle u p) :
    (uploadPhase oracle u p s).1 = s ∧ (uploadPhase oracle u p s).2.1 = [] := by
  rw [uploadPhase]
  rw [uploadsAllFail] at h
  by_cases hc : (p.media_type == "CAROUSEL_ALBUM" && p.children.isSome) = true
  · rw [if_pos hc]
    rw [if_pos hc] at h
    exact uploadChildren_fail oracle u p.id (p.children.getD []) s h
  · rw [if_neg hc]
    rw [if_neg hc] at h
    dsimp only
    rw [uploadMediaFileS_fail oracle s _ _ _ h]
    exact ⟨rfl, rfl⟩

theorem reconcilePost_skip (oracle : UploadOracle) (s : Store) (u : String)
    (p : InstagramPost) (hnew : getExistingPost s p.id u = none)
    (hfail : uploadsAllFail oracle u p) :
    (reconcilePost oracle s u p).1 = s ∧ (reconcilePost oracle s u p).2.1 = none := by
  rw [reconcilePost, hnew]
  dsimp only
  have hup := uploadPhase_fail oracle u p s hfail
  rw [if_pos (by rw [hup.2]; rfl)]
  exact ⟨hup.1, rfl⟩

theorem reconcileLoop_skip (oracle : UploadOracle) (u : String) (p : InstagramPost)
    (hfail : uploadsAllFail oracle u p) :
    ∀ (l1 : List InstagramPost) (s : Store),
      getExistingPost (reconcileLoop oracle u s l1).1 p.id u = none →
      ∀ l2 : List InstagramPost,
        (reconcileLoop oracle u s (l1 ++ p :: l2)).1
          = (reconcileLoop oracle u s (l1 ++ l2)).1
        ∧ (reconcileLoop oracle u s (l1 ++ p :: l2)).2.1
          = (reconcileLoop oracle u s (l1 ++ l2)).2.1 := by
  intro l1
  induction l1 with
  | nil =>
    intro s hnew l2
    have hskip := reconcilePost_skip oracle s u p (by simpa using hnew) hfail
    simp only [List.nil_append, reconcileLoop_cons, hskip.1, hskip.2]
    exact ⟨trivial, trivial⟩
  | cons q l1 ih =>
    intro s hnew l2
    have hnew2 : getExistingPost
        (reconcileLoop oracle u (reconcilePost oracle s u q).1 l1).1 p.id u = none := by
      simpa [reconcileLoop_cons] using hnew
    have hr := ih (reconcilePost oracle s u q).1 hnew2 l2
    simp only [List.cons_append, reconcileLoop_cons, hr.1, hr.2]
    exact ⟨trivial, trivial⟩

theorem syncResult_success (r : SyncResult) : r.success = true := by
  cases r <;> rfl

/-- C5: a new post whose uploads all fail (single or carousel) produces no
mirrored metaobject and changes nothing: the run store and accumulated ids
are the same as if the post were absent, no object with its key exists after
its turn, and the run still returns success. -/
theorem failed_uploads_skip_post (oracle : UploadOracle) (u displayName : String)
    (accU : Option String) (l1 l2 : List InstagramPost) (p : InstagramPost) (s : Store)
    (hfail : uploadsAllFail oracle u p)
    (hnew : getExistingPost (reconcileLoop oracle u s l1).1 p.id u = none) :
    ((reconcileLoop oracle u s (l1 ++ p :: l2)).1
        = (reconcileLoop oracle u s (l1 ++ l2)).1
      ∧ (reconcileLoop oracle u s (l1 ++ p :: l2)).2.1
        = (reconcileLoop oracle u s (l1 ++ l2)).2.1)
    ∧ getExistingPost ((reconcileLoop oracle u s (l1 ++ [p])).1) p.id u = none
    ∧ (syncAction oracle accU (some (l1 ++ p :: l2)) u displayName s).result.success
        = true := by
  refine ⟨reconcileLoop_skip oracle u p hfail l1 s hnew l2, ?_, syncResult_success _⟩
  have hr := (reconcileLoop_skip oracle u p hfail l1 s hnew []).1
  rw [hr]
  simpa using hnew

theorem failed_uploads_skip_post_witness :
    (syncAction oracleFail none (some ([] ++ demoPost :: [demoPost2])) "alice" "Alice"
        emptyStore).result.success = true :=
  (failed_uploads_skip_post oracleFail "alice" "Alice" none [] [demoPost2] demoPost
    emptyStore (by decide) (by decide)).2.2

/-! ## C7: ordering of purge, reconciliation and listing within one run -/

theorem uploadChildren_events (oracle : UploadOracle) (u pid : String) :
    ∀ (cs : List InstagramChild) (s : Store),
      ∀ e ∈ (uploadChildren oracle u pid cs s).2.2, e.isReconcileStep = true := by
  intro cs
  induction cs with
  | nil => intro s e he; simp [uploadChildren] at he
  | cons c cs ih =>
    intro s e he
    rw [uploadChildren] at he
    dsimp only at he
    rcases List.mem_cons.mp he with h1 | h2
    · subst h1; rfl
    · exact ih _ e h2

theorem uploadPhase_events (oracle : UploadOracle) (u : String) (p : InstagramPost)
    (s : Store) : ∀ e ∈ (uploadPhase oracle u p s).2.2, e.isReconcileStep = true := by
  intro e he
  rw [uploadPhase] at he
  by_cases hc : (p.media_type == "CAROUSEL_ALBUM" && p.children.isSome) = true
  · rw [if_pos hc] at he
    exact uploadChildren_events oracle u p.id _ s e he
  · rw [if_neg hc] at he
    dsimp only at he
    rcases List.mem_singleton.mp he with h1
    subst h1; rfl

theorem reconcilePost_events (oracle : UploadOracle) (s : Store) (u : String)
    (p : InstagramPost) :
    ∀ e ∈ (reconcilePost oracle s u p).2.2, e.isReconcileStep = true := by
  intro e he
  rw [reconcilePost] at he
  cases hE : getExistingPost s p.id u with
  | some ex =>
    rw [hE] at he
    dsimp only at he
    rcases List.mem_singleton.mp he with h1
    subst h1; rfl
  | none =>
    rw [hE] at he
    dsimp only at he
    by_cases hL : (uploadPhase oracle u p s).2.1.isEmpty = true
    · rw [if_pos hL] at he
      dsimp only at he
      rcases List.mem_cons.mp he with h1 | h2
      · subst h1; rfl
      · exact uploadPhase_events oracle u p s e h2
    · rw [if_neg hL] at he
      dsimp only at he
      rcases List.mem_cons.mp he with h1 | h2
      · subst h1; rfl
      · exact uploadPhase_events oracle u p s e h2

theorem reconcileLoop_events (oracle : UploadOracle) (u : String) :
    ∀ (ps : List InstagramPost) (s : Store),
      ∀ e ∈ (reconcileLoop oracle u s ps).2.2, e.isReconcileStep = true := by
  intro ps
  induction ps with
  | nil => intro s e he; simp at he
  | cons p ps ih =>
    intro s e he
    rw [reconcileLoop_cons] at he
    dsimp only at he
    rcases List.mem_append.mp he with h1 | h2
    · exact reconcilePost_events oracle s u p e h1
    · exact ih _ e h2

theorem syncCore_parts (oracle : UploadOracle) (cu dn : String)
    (ps : List InstagramPost) (s : Store) :
    ((syncCore oracle cu dn ps s).trace = (reconcileLoop oracle cu s ps).2.2
        ++ (if (reconcileLoop oracle cu s ps).2.1.isEmpty then []
            else [Event.listing (reconcileLoop oracle cu s ps).2.1]))
    ∧ (syncCore oracle cu dn ps s).postObjectIds = (reconcileLoop oracle cu s ps).2.1 := by
  rw [syncCore]
  dsimp only
  by_cases hL : (reconcileLoop oracle cu s ps).2.1.isEmpty = true
  · rw [if_pos hL, if_pos hL]
    exact ⟨rfl, rfl⟩
  · rw [if_neg hL, if_neg hL]
    exact ⟨rfl, rfl⟩

theorem syncAction_some (oracle : UploadOracle) (accU : Option String)
    (ps : List InstagramPost) (cu dn : String) (s : Store) (hps : ps.isEmpty = false) :
    syncAction oracle accU (some ps) cu dn s
      = (let switch :=
           match accU with
           | some old =>
             if old == cu then (s, ([] : List Event))
             else (deleteOldAccountData old s,
                   [Event.purge old, Event.updateUsername cu])
           | none => (s, [Event.updateUsername cu])
         { syncCore oracle cu dn ps switch.1 with
             trace := switch.2 ++ (syncCore oracle cu dn ps switch.1).trace }) := by
  rw [syncAction.eq_def]
  dsimp only
  rw [if_neg (by simp [hps])]

/-- C7: within one run, the trace decomposes as account-switch events
(purge and username persistence), then reconciliation events, then at most
one listing event; so the purge completes before any reconciliation begins,
and the listing — upserted at most once — carries exactly the final
accumulated sequence of post metaobject ids. -/
theorem sync_run_ordering (oracle : UploadOracle) (accU : Option String)
    (posts : Option (List InstagramPost)) (cu dn : String) (s : Store) :
    ∃ pre loopE listE,
      (syncAction oracle accU posts cu dn s).trace = pre ++ loopE ++ listE
      ∧ (∀ e ∈ pre, e.isSwitchStep = true)
      ∧ (∀ e ∈ loopE, e.isReconcileStep = true)
      ∧ (listE = []
         ∨ listE = [Event.listing (syncAction oracle accU posts cu dn s).postObjectIds]) := by
  cases posts with
  | none => exact ⟨[], [], [], rfl, by simp, by simp, Or.inl rfl⟩
  | some ps =>
    by_cases hps : ps.isEmpty = true
    · refine ⟨[], [], [], ?_, by simp, by simp, Or.inl rfl⟩
      rw [syncAction.eq_def]
      dsimp only
      rw [if_pos hps]
      rfl
    · have hps2 : ps.isEmpty = false := by simpa using hps
      rw [syncAction_some oracle accU ps cu dn s hps2]
      dsimp only
      set sw := (match accU with
        | some old =>
          if old == cu then (s, ([] : List Event))
          else (deleteOldAccountData old s, [Event.purge old, Event.updateUsername cu])
        | none => (s, [Event.updateUsername cu])) with hsw
      refine ⟨sw.2, (reconcileLoop oracle cu sw.1 ps).2.2,
        (if (reconcileLoop oracle cu sw.1 ps).2.1.isEmpty then []
         else [Event.listing (reconcileLoop oracle cu sw.1 ps).2.1]), ?_, ?_, ?_, ?_⟩
      · rw [(syncCore_parts oracle cu dn ps sw.1).1, List.append_assoc]
      · intro e he
        rcases accU with _ | old
        · rw [hsw] at he
          rcases List.mem_singleton.mp (by simpa using he) with h1
          subst h1; rfl
        · by_cases ho : (old == cu) = true
          · rw [hsw] at he
            simp [ho] at he
          · rw [hsw] at he
            simp only [ho, Bool.false_eq_true, if_false] at he
            rcases (by simpa using he :
                e = Event.purge old ∨ e = Event.updateUsername cu) with h1 | h2
            · subst h1; rfl
            · subst h2; rfl
      · exact fun e he => reconcileLoop_events oracle cu ps sw.1 e he
      · by_cases hL : (reconcileLoop oracle cu sw.1 ps).2.1.isEmpty = true
        · rw [if_pos hL]
          exact Or.inl rfl
        · rw [if_neg hL]
          right
          rw [(syncCore_parts oracle cu dn ps sw.1).2]

theorem sync_run_ordering_witness :
    ∃ pre loopE listE,
      (syncAction oracleOK (some "alice") (some [demoPost]) "bob" "Bob" aliceStore).trace
        = pre ++ loopE ++ listE
      ∧ (∀ e ∈ pre, e.isSwitchStep = true)
      ∧ (∀ e ∈ loopE, e.isReconcileStep = true)
      ∧ (listE = []
         ∨ listE = [Event.listing (syncAction oracleOK (some "alice") (some [demoPost])
             "bob" "Bob" aliceStore).postObjectIds]) :=
  sync_run_ordering oracleOK (some "alice") (some [demoPost]) "bob" "Bob" aliceStore

/-! ## C4: the full disconnect purge queries the wrong metaobject types -/

/-- C4 exhibit: the sync engine stores mirrored posts under metaobject type
`instagram-post` (`upsertPostMetaobject`), but the disconnect purge
(`deleteMetaobjects` in `metaobjects.server.ts`) queries types
`nn_instagram_post` / `nn_instagram_list`; on a store holding exactly one
mirrored post the full purge deletes zero metaobjects, leaves the mirrored
post in place, and still reports success. -/
theorem full_purge_misses_mirrored_posts :
    (deleteInstagramData respNone oneMirroredPostStore).1.success = true
    ∧ (deleteInstagramData respNone oneMirroredPostStore).1.deletedMetaobjects = 0
    ∧ (deleteInstagramData respNone oneMirroredPostStore).2.objects
        = oneMirroredPostStore.objects
    ∧ (oneMirroredPostStore.objects.filter
        (fun o => o.otype == "instagram-post")).length = 1 := by
  refine ⟨rfl, by decide, by decide, by decide⟩

/-! ## C1: account switch purges exactly the data of the prior username -/

theorem listPrefixB_imp_infixB {α : Type} [DecidableEq α] :
    ∀ (n h : List α), listPrefixB n h = true → listInfixB n h = true := by
  intro n h hp
  cases h with
  | nil =>
    cases n with
    | nil => rfl
    | cons a as => simp [listPrefixB] at hp
  | cons b bs =>
    rw [listInfixB]
    simp [hp]

theorem strStartsWith_imp (a pre : String) (h : strStartsWith a pre = true) :
    strContains a pre = true :=
  listPrefixB_imp_infixB pre.data a.data h

theorem foldl_metaobjectDelete (D : List StoreObject) :
    ∀ s : Store,
      (D.foldl (fun st o => metaobjectDelete st o.id) s).objects
        = s.objects.filter (fun x => !((D.map (·.id)).contains x.id))
      ∧ (D.foldl (fun st o => metaobjectDelete st o.id) s).files = s.files
      ∧ (D.foldl (fun st o => metaobjectDelete st o.id) s).nextId = s.nextId := by
  induction D with
  | nil =>
    intro s
    refine ⟨?_, rfl, rfl⟩
    simp
  | cons d D ih =>
    intro s
    have hstep := ih (metaobjectDelete s d.id)
    refine ⟨?_, hstep.2.1, hstep.2.2⟩
    rw [List.foldl_cons, hstep.1, metaobjectDelete]
    rw [List.filter_filter]
    apply List.filter_congr
    intro x _
    by_cases hxd : x.id = d.id <;> simp [hxd, bne, Bool.not_or, Bool.and_comm]

theorem contains_map_filter {α β : Type} [DecidableEq β] (f : α → β) (q : α → Bool)
    {l : List α} (hnd : (l.map f).Nodup) (x : α) (hx : x ∈ l) :
    ((l.filter q).map f).contains (f x) = q x := by
  by_cases hq : q x = true
  · have hmem : f x ∈ (l.filter q).map f :=
      List.mem_map.mpr ⟨x, List.mem_filter.mpr ⟨hx, hq⟩, rfl⟩
    rw [hq]
    simpa [List.elem_iff] using hmem
  · have hq2 : q x = false := by simpa using hq
    rw [hq2]
    by_contra hcon
    have hcon2 : ∃ y ∈ l, q y = true ∧ f y = f x := by
      simpa [List.elem_iff] using hcon
    rcases hcon2 with ⟨y, hyl, hyq, hyfx⟩
    have hxy : y = x := List.inj_on_of_nodup_map hnd hyl hx hyfx
    rw [hxy] at hyq
    rw [hyq] at hq2
    exact absurd hq2 (by simp)

theorem purgeOldPosts_spec (old : String) (s : Store)
    (hnd : (s.objects.map (·.id)).Nodup)
    (hN : (s.objects.filter (fun o => o.otype == "instagram-post")).length ≤ 250) :
    (purgeOldPosts old s).objects
      = s.objects.filter (fun o =>
          !(o.otype == "instagram-post" && strStartsWith o.handle (old ++ "-post-")))
    ∧ (purgeOldPosts old s).files = s.files
    ∧ (purgeOldPosts old s).nextId = s.nextId := by
  rw [purgeOldPosts]
  have hfold := foldl_metaobjectDelete
    (((s.objects.filter (fun o => o.otype == "instagram-post")).take 250).filter
      (fun o => strStartsWith o.handle (old ++ "-post-"))) s
  refine ⟨?_, hfold.2.1, hfold.2.2⟩
  rw [hfold.1, List.take_of_length_le hN, List.filter_filter]
  apply List.filter_congr
  intro x hx
  rw [contains_map_filter (fun o : StoreObject => o.id)
    (fun a => strStartsWith a.handle (old ++ "-post-") && (a.otype == "instagram-post"))
    hnd x hx]
  by_cases h1 : (x.otype == "instagram-post") = true <;>
    by_cases h2 : strStartsWith x.handle (old ++ "-post-") = true <;>
      simp [h1, h2]

theorem purgeOldList_spec (old : String) (s : Store)
    (hnd : (s.objects.map (·.id)).Nodup)
    (hndp : (s.objects.map (fun o => (o.otype, o.handle))).Nodup) :
    (purgeOldList old s).objects
      = s.objects.filter (fun o =>
          !(o.otype == "instagram-list" && o.handle == listingKey old))
    ∧ (purgeOldList old s).files = s.files
    ∧ (purgeOldList old s).nextId = s.nextId := by
  rw [purgeOldList]
  cases hfind : findByHandle s "instagram-list" (listingKey old) with
  | none =>
    rw [findByHandle] at hfind
    refine ⟨?_, rfl, rfl⟩
    rw [eq_comm, List.filter_eq_self]
    intro x hx
    have hne2 := List.find?_eq_none.mp hfind x hx
    rw [eq_false_of_ne_true hne2]
    rfl
  | some o =>
    rw [findByHandle] at hfind
    have ho_mem : o ∈ s.objects := List.mem_of_find?_eq_some hfind
    have ho_pred := List.find?_some hfind
    simp only [Bool.and_eq_true, beq_iff_eq] at ho_pred
    dsimp only
    refine ⟨?_, rfl, rfl⟩
    rw [metaobjectDelete]
    apply List.filter_congr
    intro x hx
    by_cases hxo : x = o
    · subst hxo
      simp [ho_pred.1, ho_pred.2]
    · have hxid : x.id ≠ o.id := fun he => hxo (List.inj_on_of_nodup_map hnd hx ho_mem he)
      have hpair : ¬(x.otype == "instagram-list" && x.handle == listingKey old) = true := by
        intro hp
        apply hxo
        apply List.inj_on_of_nodup_map hndp hx ho_mem
        simp only [Bool.and_eq_true] at hp
        rcases hp with ⟨hp1, hp2⟩
        have hx1 : x.otype = "instagram-list" := by simpa using hp1
        have hx2 : x.handle = listingKey old := by simpa using hp2
        rw [Prod.mk.injEq]
        exact ⟨hx1.trans ho_pred.1.symm, hx2.trans ho_pred.2.symm⟩
      simp [bne, hxid, hpair]

theorem purgeOldFiles_spec (old : String) (s : Store)
    (hnd : (s.files.map (·.id)).Nodup)
    (hM : (s.files.filter (fun f => strContains f.alt (old ++ "-post_"))).length ≤ 250) :
    (purgeOldFiles old s).files
      = s.files.filter (fun f => !(strStartsWith f.alt (old ++ "-post_")))
    ∧ (purgeOldFiles old s).objects = s.objects
    ∧ (purgeOldFiles old s).nextId = s.nextId := by
  rw [purgeOldFiles]
  have hOld : ((s.files.filter (fun f => strContains f.alt (old ++ "-post_"))).take 250).filter
        (fun f => strStartsWith f.alt (old ++ "-post_"))
      = s.files.filter (fun f => strStartsWith f.alt (old ++ "-post_")) := by
    rw [List.take_of_length_le hM, List.filter_filter]
    apply List.filter_congr
    intro f _
    by_cases hsw : strStartsWith f.alt (old ++ "-post_") = true
    · simp [hsw, strStartsWith_imp f.alt _ hsw]
    · simp [hsw]
  rw [hOld]
  by_cases hE : (s.files.filter (fun f => strStartsWith f.alt (old ++ "-post_"))).isEmpty = true
  · rw [if_pos hE]
    refine ⟨?_, rfl, rfl⟩
    rw [eq_comm, List.filter_eq_self]
    intro f hf
    have hnil : s.files.filter (fun f => strStartsWith f.alt (old ++ "-post_")) = [] := by
      simpa [List.isEmpty_iff] using hE
    have hne2 := List.filter_eq_nil_iff.mp hnil f hf
    rw [eq_false_of_ne_true hne2]
    rfl
  · rw [if_neg hE, fileDeleteBatch]
    refine ⟨?_, rfl, rfl⟩
    apply List.filter_congr
    intro f hf
    rw [contains_map_filter (fun x : FileObject => x.id)
      (fun f => strStartsWith f.alt (old ++ "-post_")) hnd f hf]

theorem deleteOldAccountData_exact (old : String) (s : Store) (hwf : StoreWF s)
    (hN : (s.objects.filter (fun o => o.otype == "instagram-post")).length ≤ 250)
    (hM : (s.files.filter (fun f => strContains f.alt (old ++ "-post_"))).length ≤ 250) :
    (deleteOldAccountData old s).objects
      = s.objects.filter (fun o =>
          !(o.otype == "instagram-post" && strStartsWith o.handle (old ++ "-post-"))
          && !(o.otype == "instagram-list" && o.handle == listingKey old))
    ∧ (deleteOldAccountData old s).files
      = s.files.filter (fun f => !(strStartsWith f.alt (old ++ "-post_"))) := by
  obtain ⟨h1, h2, h3, _, _⟩ := hwf
  have hp := purgeOldPosts_spec old s h1 hN
  have h1b : ((purgeOldPosts old s).objects.map (·.id)).Nodup := by
    rw [hp.1]
    exact ((List.filter_sublist _).map _).nodup h1
  have h3b : ((purgeOldPosts old s).objects.map (fun o => (o.otype, o.handle))).Nodup := by
    rw [hp.1]
    exact ((List.filter_sublist _).map _).nodup h3
  have hl := purgeOldList_spec old (purgeOldPosts old s) h1b h3b
  have h2c : ((purgeOldList old (purgeOldPosts old s)).files.map (·.id)).Nodup := by
    rw [hl.2.1, hp.2.1]
    exact h2
  have hMc : ((purgeOldList old (purgeOldPosts old s)).files.filter
      (fun f => strContains f.alt (old ++ "-post_"))).length ≤ 250 := by
    rw [hl.2.1, hp.2.1]
    exact hM
  have hf := purgeOldFiles_spec old (purgeOldList old (purgeOldPosts old s)) h2c hMc
  rw [deleteOldAccountData]
  constructor
  · rw [hf.2.1, hl.1, hp.1, List.filter_filter]
    apply List.filter_congr
    intro x _
    exact Bool.and_comm _ _
  · rw [hf.1, hl.2.1, hp.2.1]

/-- C1 counterexample: the purge reads only a single page of 250 metaobjects
and does not paginate, so with 251 mirrored posts of the prior username one
of them survives the account switch — the run does not purge all N of the
posts of the prior username for every N. -/
theorem account_switch_purge_counterexample :
    (bigAliceStore.objects.filter (fun o =>
        o.otype == "instagram-post" && strStartsWith o.handle "alice-post-")).length = 251
    ∧ ((deleteOldAccountData "alice" bigAliceStore).objects.filter (fun o =>
        strStartsWith o.handle "alice-post-")).length = 1 := by
  constructor
  · decide
  · decide

/-- C1 (amended): on an account switch (stored username `old` non-empty and
different from the observed one), provided the store holds at most 250
objects of the post kind and at most 250 files matching the coarse alt
query (one fetch page — the purge does not paginate), the run purges exactly
the posts of the prior username (every object of the post kind whose handle has
prefix `{old}-post-`), the listing of the prior username, and exactly the files
whose alt tag has prefix `{old}-post_`, deleting nothing else; and the purge
runs before any post is reconciled and before the new username is persisted. -/
theorem account_switch_scoped_purge (oracle : UploadOracle) (old cu dn : String)
    (ps : List InstagramPost) (s : Store) (hwf : StoreWF s)
    (hN : (s.objects.filter (fun o => o.otype == "instagram-post")).length ≤ 250)
    (hM : (s.files.filter (fun f => strContains f.alt (old ++ "-post_"))).length ≤ 250)
    (hne : old ≠ cu) (hps : ps ≠ []) :
    ((deleteOldAccountData old s).objects
        = s.objects.filter (fun o =>
            !(o.otype == "instagram-post" && strStartsWith o.handle (old ++ "-post-"))
            && !(o.otype == "instagram-list" && o.handle == listingKey old))
      ∧ (deleteOldAccountData old s).files
        = s.files.filter (fun f => !(strStartsWith f.alt (old ++ "-post_"))))
    ∧ syncAction oracle (some old) (some ps) cu dn s
        = { syncCore oracle cu dn ps (deleteOldAccountData old s) with
            trace := Event.purge old :: Event.updateUsername cu ::
              (syncCore oracle cu dn ps (deleteOldAccountData old s)).trace } := by
  refine ⟨deleteOldAccountData_exact old s hwf hN hM, ?_⟩
  rw [syncAction_some oracle (some old) ps cu dn s (by simp [hps])]
  dsimp only
  rw [if_neg (by simp [hne])]
  rfl

theorem account_switch_scoped_purge_witness :
    (deleteOldAccountData "alice" aliceStore).objects
      = aliceStore.objects.filter (fun o =>
          !(o.otype == "instagram-post" && strStartsWith o.handle ("alice" ++ "-post-"))
          && !(o.otype == "instagram-list" && o.handle == listingKey "alice")) :=
  ((account_switch_scoped_purge oracleOK "alice" "bob" "Bob" [demoPost] aliceStore
      (by decide) (by decide) (by decide) (by decide) (by decide)).1).1

end NnInstagram
